import Mathlib

/-!
Shallow embedding of the Journalizer `JournalEntryScreen` component
(`src/unnamed/part_000`): the entry editor draft state, the tag-set
operations `addTag` / `deleteTag`, the save handler `onSave`, and the
mount-time load effect (`loadEntry`).  JavaScript platform services the
component calls (`String.prototype.trim`, `Array.prototype.includes`,
`Array.prototype.filter`, `JSON.parse`, `Date`) are modelled as executable
Lean functions faithful to their behaviour on the values that occur here.
-/

namespace Journalizer

/-- Whitespace recognised by the JavaScript `trim` model: the ASCII
whitespace characters (space, tab, line feed, carriage return, vertical
tab, form feed). -/
def jsWhitespace (c : Char) : Bool :=
  c = ' ' || c = '\t' || c = '\n' || c = '\r' || c = Char.ofNat 11 || c = Char.ofNat 12

/-- Modelled from the spec: `String.prototype.trim` (a platform service) —
removes leading and trailing whitespace from a string. -/
def jsTrim (s : String) : String :=
  String.mk (((s.data.dropWhile jsWhitespace).reverse.dropWhile jsWhitespace).reverse)

/-- Modelled from the spec: the platform `Date` object.  The component only
constructs a date (`new Date()`, `new Date(isoString)`) and serializes it
(`toISOString`), so a date is modelled by its ISO-8601 textual form. -/
structure JSDate where
  iso : String
deriving DecidableEq, Repr

/-- `new Date(isoString)` — parse an ISO-8601 string (source line 51). -/
def JSDate.ofISOString (s : String) : JSDate := ⟨s⟩

/-- `date.toISOString()` — serialize to ISO-8601 text (source lines 87, 99). -/
def JSDate.toISOString (d : JSDate) : String := d.iso

/-- The in-memory draft state of `JournalEntryScreen`: the `useState`
hooks `date`, `title`, `body`, `tags`, `tagModalVisible`, `loading`
(source lines 21-28). -/
structure EditorState where
  date : JSDate
  title : String
  body : String
  tags : List String
  tagModalVisible : Bool
  loading : Bool
deriving DecidableEq, Repr

/-- The initial hook values: current date, empty title and body, empty tag
list, modal hidden, `loading` initially `true` (source lines 21-28). -/
def initialState (now : JSDate) : EditorState :=
  { date := now, title := "", body := "", tags := [], tagModalVisible := false,
    loading := true }

/-- `addTag` (source lines 112-124).  Returns the updated state and the
alert surfaced, if any.  Note the source checks membership of the
*untrimmed* input (`!prevTags.includes(tag)`, line 116) but appends the
*trimmed* value (`tag.trim()`, line 117); `setTagModalVisible(false)` runs
on every path (line 123). -/
def addTag (tag : String) (s : EditorState) : EditorState × Option String :=
  if jsTrim tag ≠ "" then
    if !(s.tags.contains tag) then
      ({ s with tags := s.tags ++ [jsTrim tag], tagModalVisible := false }, none)
    else
      ({ s with tagModalVisible := false }, some "Tag already exists")
  else
    ({ s with tagModalVisible := false }, none)

/-- `deleteTag` (source lines 126-130): `prevTags.filter(t => t !== tag)`. -/
def deleteTag (tag : String) (s : EditorState) : EditorState :=
  { s with tags := s.tags.filter (fun t => t != tag) }

/-- Modelled from the spec: the escape-character table of `JSON.parse`
(a platform service) restricted to the single-character escapes of JSON
strings. -/
def unescape (c : Char) : Option Char :=
  if c = '"' then some '"'
  else if c = '\\' then some '\\'
  else if c = '/' then some '/'
  else if c = 'n' then some '\n'
  else if c = 't' then some '\t'
  else if c = 'r' then some '\r'
  else if c = 'b' then some (Char.ofNat 8)
  else if c = 'f' then some (Char.ofNat 12)
  else none

/-- Modelled from the spec: body of a JSON string after its opening quote.
Returns the decoded characters and the input remaining after the closing
quote, or `none` on malformed input. -/
def parseStrBody : List Char → Option (List Char × List Char)
  | [] => none
  | c :: cs =>
    if c = '"' then some ([], cs)
    else if c = '\\' then
      match cs with
      | [] => none
      | e :: cs' =>
        match unescape e, parseStrBody cs' with
        | some d, some (s, r) => some (d :: s, r)
        | _, _ => none
    else
      match parseStrBody cs with
      | some (s, r) => some (c :: s, r)
      | none => none

/-- Modelled from the spec: the elements of a non-empty JSON array of
strings, positioned at the start of an element; fuelled to bound the
recursion (one unit of fuel per element). -/
def parseItems : Nat → List Char → Option (List (List Char))
  | 0, _ => none
  | _ + 1, [] => none
  | fuel + 1, c :: cs =>
    if c = '"' then
      match parseStrBody cs with
      | none => none
      | some (s, rest) =>
        match rest with
        | [] => none
        | r :: rs =>
          if r = ']' then (if rs = [] then some [s] else none)
          else if r = ',' then (parseItems fuel rs).map (fun l => s :: l)
          else none
    else none

/-- Modelled from the spec: `JSON.parse` (a platform service) restricted
to the values this component stores — JSON arrays of strings, as written
by the storage collaborator (`tags` is a JSON-encoded array of strings).
Returns `none` where `JSON.parse` would throw. -/
def jsonParseTags (s : String) : Option (List String) :=
  match s.data with
  | [] => none
  | c :: cs =>
    if c = '[' then
      if cs = [']'] then some []
      else (parseItems cs.length cs).map (fun l => l.map String.mk)
    else none

/-- Modelled from the spec: JSON encoding of one string's characters
(quote and backslash escaped, other characters verbatim), as produced by
the storage collaborator for the `tags` field. -/
def encodeChars : List Char → List Char
  | [] => []
  | c :: cs => (if c = '"' || c = '\\' then ['\\', c] else [c]) ++ encodeChars cs

/-- Modelled from the spec: JSON encoding of one string, quotes included. -/
def encodeString (s : String) : List Char :=
  '"' :: (encodeChars s.data ++ ['"'])

/-- Comma-join the encodings of the array elements. -/
def joinComma : List (List Char) → List Char
  | [] => []
  | [x] => x
  | x :: y :: rest => x ++ ',' :: joinComma (y :: rest)

/-- Modelled from the spec: the JSON text encoding of an array of strings,
the stored text representation of the `tags` field. -/
def encodeTags (l : List String) : String :=
  String.mk ('[' :: (joinComma (l.map encodeString) ++ [']']))

/-- The record shape returned by the storage collaborator's
`readJournalEntry`: `date` an ISO-8601 string, `tags` the JSON text of an
array of strings (spec §6; consumed at source lines 49-54). -/
structure DBEntry where
  date : String
  title : String
  body : String
  tags : String
deriving DecidableEq, Repr

/-- Primitive state-changing events of the mount effect (source lines
44-60): the `setLoading` / `setDate` / `setTitle` / `setBody` / `setTags`
hook calls and the `readJournalEntry` invocation. -/
inductive Ev where
  | setLoading (b : Bool)
  | readCall (id : Nat)
  | setDate (d : JSDate)
  | setTitle (t : String)
  | setBody (b : String)
  | setTags (ts : List String)
deriving DecidableEq, Repr

/-- Apply one event to the editor state (`readCall` changes nothing). -/
def applyEv (s : EditorState) : Ev → EditorState
  | .setLoading b => { s with loading := b }
  | .readCall _ => s
  | .setDate d => { s with date := d }
  | .setTitle t => { s with title := t }
  | .setBody b => { s with body := b }
  | .setTags ts => { s with tags := ts }

/-- Apply a sequence of events in order. -/
def runTrace (s : EditorState) (evs : List Ev) : EditorState :=
  evs.foldl applyEv s

/-- The event trace of the mount effect (source lines 44-60), given the
entry identifier from the route and the storage collaborator's read
results.  The source invokes the async `loadEntry()` WITHOUT awaiting it
(line 57), so the order of events is: the synchronous prefix of
`loadEntry` — `setLoading(true)` (line 48) and the `readJournalEntry`
call (line 49) — then, control having returned at the `await`, the
effect's trailing `setLoading(false)` (line 59); only afterwards does the
resumed continuation map the fetched fields (lines 51-54).  If the read
returns an absent record the `if (entry)` guard (line 50) skips the field
mapping.  `JSON.parse` is evaluated last (line 54); where it would throw,
`setTags` does not happen and the rejection is unhandled.  With no
identifier the effect only runs `setLoading(false)`. -/
def mountTrace (entryId : Option Nat) (read : Nat → Option DBEntry) : List Ev :=
  match entryId with
  | none => [.setLoading false]
  | some id =>
    [.setLoading true, .readCall id, .setLoading false] ++
    (match read id with
     | none => []
     | some e =>
       [.setDate (JSDate.ofISOString e.date), .setTitle e.title, .setBody e.body] ++
       (match jsonParseTags e.tags with
        | some ts => [.setTags ts]
        | none => []))

/-- The editor state after the whole mount effect has run. -/
def mountState (now : JSDate) (entryId : Option Nat)
    (read : Nat → Option DBEntry) : EditorState :=
  runTrace (initialState now) (mountTrace entryId read)

/-- The payload `onSave` passes to `updateJournalEntry` (source lines
85-91): the identifier, the date serialized with `toISOString`, and the
current title, body and tag list. -/
structure UpdatePayload where
  id : Nat
  date : String
  title : String
  body : String
  tags : List String
deriving DecidableEq, Repr

/-- The payload `onSave` passes to `createJournalEntry` (source lines
98-103): as `UpdatePayload` but without an identifier. -/
structure CreatePayload where
  date : String
  title : String
  body : String
  tags : List String
deriving DecidableEq, Repr

/-- The environment of one `onSave` run: what the storage collaborator's
update and create operations would resolve or reject with. -/
structure SaveEnv where
  updateResult : Except String Unit
  createResult : Except String Unit

/-- The observable effects of one `onSave` run: collaborator calls made,
alerts shown, `console.error` logs (message and error), and navigations
performed. -/
structure SaveEffects where
  updateCalls : List UpdatePayload
  createCalls : List CreatePayload
  alerts : List String
  logs : List (String × String)
  navigations : List String
deriving DecidableEq, Repr

/-- The `try` block of `onSave` (source lines 82-105): returns the effects
of the block together with the error it threw, if any (a rejected `await`
re-raises at the `await` site, skipping the rest of the block). -/
def onSaveBody (entryId : Option Nat) (s : EditorState) (env : SaveEnv) :
    SaveEffects × Option String :=
  match entryId with
  | some id =>
    let payload : UpdatePayload :=
      { id := id, date := s.date.toISOString, title := s.title, body := s.body,
        tags := s.tags }
    match env.updateResult with
    | .error e =>
      ({ updateCalls := [payload], createCalls := [], alerts := [], logs := [],
         navigations := [] }, some e)
    | .ok _ =>
      ({ updateCalls := [payload], createCalls := [], alerts := [], logs := [],
         navigations := ["JournalScreen"] }, none)
  | none =>
    if jsTrim s.body = "" then
      ({ updateCalls := [], createCalls := [],
         alerts := ["Please enter a journal entry"], logs := [],
         navigations := [] }, none)
    else
      let payload : CreatePayload :=
        { date := s.date.toISOString, title := s.title, body := s.body,
          tags := s.tags }
      match env.createResult with
      | .error e =>
        ({ updateCalls := [], createCalls := [payload], alerts := [], logs := [],
           navigations := [] }, some e)
      | .ok _ =>
        ({ updateCalls := [], createCalls := [payload], alerts := [], logs := [],
           navigations := ["JournalScreen"] }, none)

/-- `onSave` (source lines 81-109): runs the `try` block; a thrown error is
caught and logged with `console.error('Failed to save journal entry:',
error)` (line 107) and does not propagate.  `onSave` calls no state
setter, so the draft state is returned unchanged. -/
def onSave (entryId : Option Nat) (s : EditorState) (env : SaveEnv) :
    EditorState × SaveEffects :=
  let (eff, err) := onSaveBody entryId s env
  match err with
  | none => (s, eff)
  | some e =>
    (s, { eff with logs := eff.logs ++ [("Failed to save journal entry:", e)] })

/-! ## Round-trip of the tag codec -/

theorem mk_data (s : String) : String.mk s.data = s := rfl

theorem parseStrBody_encode (s rest : List Char) :
    parseStrBody (encodeChars s ++ '"' :: rest) = some (s, rest) := by
  induction s with
  | nil =>
    simp only [encodeChars, List.nil_append]
    unfold parseStrBody
    simp
  | cons c cs ih =>
    by_cases h1 : c = '"'
    · subst h1
      have he : encodeChars ('"' :: cs) = '\\' :: '"' :: encodeChars cs := by
        simp [encodeChars]
      rw [he, List.cons_append, List.cons_append]
      unfold parseStrBody
      simp [unescape, ih]
    · by_cases h2 : c = '\\'
      · subst h2
        have he : encodeChars ('\\' :: cs) = '\\' :: '\\' :: encodeChars cs := by
          simp [encodeChars]
        rw [he, List.cons_append, List.cons_append]
        unfold parseStrBody
        simp [unescape, ih]
      · have he : encodeChars (c :: cs) = c :: encodeChars cs := by
          simp [encodeChars, h1, h2]
        rw [he, List.cons_append]
        unfold parseStrBody
        rw [if_neg h1, if_neg h2, ih]

theorem parseItems_encode (l : List String) :
    ∀ fuel : Nat, l ≠ [] → l.length ≤ fuel →
    parseItems fuel (joinComma (l.map encodeString) ++ [']']) =
      some (l.map String.data) := by
  induction l with
  | nil => exact fun _ h _ => absurd rfl h
  | cons s ls ih =>
    intro fuel _ hlen
    cases fuel with
    | zero => simp at hlen
    | succ f =>
      cases ls with
      | nil =>
        have harr : joinComma ([s].map encodeString) ++ [']'] =
            '"' :: (encodeChars s.data ++ '"' :: [']']) := by
          simp [joinComma, encodeString]
        rw [harr]
        simp [parseItems, parseStrBody_encode]
      | cons t ts =>
        have harr : joinComma ((s :: t :: ts).map encodeString) ++ [']'] =
            '"' :: (encodeChars s.data ++ '"' ::
              (',' :: (joinComma ((t :: ts).map encodeString) ++ [']']))) := by
          simp [joinComma, encodeString]
        rw [harr]
        have hrec := ih f (by simp) (by simpa using Nat.le_of_succ_le_succ hlen)
        simp only [List.map_cons] at hrec ⊢
        simp [parseItems, parseStrBody_encode, hrec]

theorem joinComma_encode_length (l : List String) :
    l ≠ [] → l.length ≤ (joinComma (l.map encodeString)).length := by
  induction l with
  | nil => exact fun h => absurd rfl h
  | cons s ls ih =>
    intro _
    cases ls with
    | nil => simp [joinComma, encodeString]
    | cons t ts =>
      have hrec := ih (by simp)
      simp only [List.map_cons] at hrec ⊢
      simp only [joinComma]
      simp only [encodeString, List.length_append, List.length_cons,
        List.length_nil] at hrec ⊢
      omega

theorem jsonParseTags_encodeTags (l : List String) :
    jsonParseTags (encodeTags l) = some l := by
  cases l with
  | nil => decide
  | cons s ls =>
    have hdata : (encodeTags (s :: ls)).data =
        '[' :: (joinComma ((s :: ls).map encodeString) ++ [']']) := rfl
    obtain ⟨K, hK⟩ : ∃ K, joinComma ((s :: ls).map encodeString) = '"' :: K := by
      cases ls with
      | nil =>
        exact ⟨encodeChars s.data ++ ['"'], by simp [joinComma, encodeString]⟩
      | cons t ts =>
        exact ⟨(encodeChars s.data ++ ['"']) ++
          ',' :: joinComma (encodeString t :: List.map encodeString ts),
          by simp [joinComma, encodeString]⟩
    have hne : joinComma ((s :: ls).map encodeString) ++ [']'] ≠ [']'] := by
      rw [hK]
      intro hcontra
      simpa using congrArg List.length hcontra
    have hlen : (s :: ls).length ≤
        (joinComma ((s :: ls).map encodeString) ++ [']']).length := by
      have hj := joinComma_encode_length (s :: ls) (by simp)
      simp only [List.length_append, List.length_cons, List.length_nil] at hj ⊢
      omega
    unfold jsonParseTags
    rw [hdata]
    show (if ('[' : Char) = '[' then
        if (joinComma ((s :: ls).map encodeString) ++ [']']) = [']'] then some []
        else (parseItems (joinComma ((s :: ls).map encodeString) ++ [']']).length
                (joinComma ((s :: ls).map encodeString) ++ [']'])).map
              (fun l => l.map String.mk)
      else none) = some (s :: ls)
    rw [if_pos rfl, if_neg hne]
    rw [parseItems_encode (s :: ls) _ (by simp) hlen]
    have hid : (String.mk ∘ String.data) = id := rfl
    simp only [Option.map_some', List.map_map, hid, List.map_id]

/-! ## Claim theorems -/

/-- Claim C1: the spec's invariant says the tag sequence never holds
duplicate values; the code violates it.  Starting from a blank draft,
`addTag "x"` followed by `addTag " x "` yields the tag sequence
`["x", "x"]`, which is not duplicate-free: the duplicate check tests the
untrimmed input while the trimmed value is stored. -/
theorem addTag_whitespace_variant_creates_duplicate :
    ((addTag " x " (addTag "x"
        (initialState ⟨"2024-01-01T00:00:00.000Z"⟩)).1).1).tags = ["x", "x"]
    ∧ ¬ ((addTag " x " (addTag "x"
        (initialState ⟨"2024-01-01T00:00:00.000Z"⟩)).1).1).tags.Nodup := by
  decide

/-- Claim C2: the claim says an input whose trimmed form already occurs is
rejected with a duplicate notification and the sequence is unchanged; on
the code, with current tags `["x"]`, `addTag " x "` (trimmed form `"x"`,
already present) is instead accepted: the sequence becomes `["x", "x"]`
and no alert is raised. -/
theorem addTag_trimmed_duplicate_not_rejected :
    (addTag " x " { initialState ⟨"2024-01-01T00:00:00.000Z"⟩ with
        tags := ["x"] }).1.tags = ["x", "x"]
    ∧ (addTag " x " { initialState ⟨"2024-01-01T00:00:00.000Z"⟩ with
        tags := ["x"] }).2 = none := by
  decide

/-- Claim C3: with no identifier and a body that trims to empty, `onSave`
surfaces the validation alert, invokes neither collaborator operation,
performs no navigation, and returns the draft state unchanged. -/
theorem onSave_blank_body_aborts_create (s : EditorState) (env : SaveEnv)
    (h : jsTrim s.body = "") :
    onSave none s env =
      (s, { updateCalls := [], createCalls := [],
            alerts := ["Please enter a journal entry"], logs := [],
            navigations := [] }) := by
  simp [onSave, onSaveBody, h]

/-- Witness for C3 at the concrete whitespace body `"   "`. -/
theorem onSave_blank_body_aborts_create_witness :
    jsTrim "   " = "" ∧
    onSave none
        { initialState ⟨"2024-01-01T00:00:00.000Z"⟩ with body := "   " }
        ⟨Except.ok (), Except.ok ()⟩ =
      ({ initialState ⟨"2024-01-01T00:00:00.000Z"⟩ with body := "   " },
       { updateCalls := [], createCalls := [],
         alerts := ["Please enter a journal entry"], logs := [],
         navigations := [] }) :=
  ⟨by decide, onSave_blank_body_aborts_create _ _ (by decide)⟩

/-- Claim C4: with an identifier present, `onSave` calls the update
operation exactly once with the full current draft (date serialized with
`toISOString`), never calls create, raises no validation alert (a blank
body still updates), and leaves the draft state unchanged — for every
draft state and every collaborator outcome. -/
theorem onSave_update_path (id : Nat) (s : EditorState) (env : SaveEnv) :
    (onSave (some id) s env).2.updateCalls =
      [{ id := id, date := s.date.toISOString, title := s.title,
         body := s.body, tags := s.tags }]
    ∧ (onSave (some id) s env).2.createCalls = []
    ∧ (onSave (some id) s env).2.alerts = []
    ∧ (onSave (some id) s env).1 = s := by
  cases henv : env.updateResult <;> simp [onSave, onSaveBody, henv]

/-- Claim C6: when the collaborator's update (identifier present) or
create (identifier absent, non-blank body) operation rejects, `onSave`
logs the error with the `console.error` message, performs no navigation,
calls each collaborator operation at most once (no retry), returns the
state unchanged, and the error does not escape (`onSave` yields plain
effects). -/
theorem onSave_collaborator_failure_logged (entryId : Option Nat)
    (s : EditorState) (env : SaveEnv) (e : String)
    (h : (∃ id, entryId = some id ∧ env.updateResult = Except.error e) ∨
         (entryId = none ∧ jsTrim s.body ≠ "" ∧
          env.createResult = Except.error e)) :
    (onSave entryId s env).2.logs = [("Failed to save journal entry:", e)]
    ∧ (onSave entryId s env).2.navigations = []
    ∧ (onSave entryId s env).2.updateCalls.length ≤ 1
    ∧ (onSave entryId s env).2.createCalls.length ≤ 1
    ∧ (onSave entryId s env).1 = s := by
  rcases h with ⟨id, rfl, hu⟩ | ⟨rfl, hb, hc⟩
  · simp [onSave, onSaveBody, hu]
  · simp [onSave, onSaveBody, hb, hc]

/-- Witness for C6: a failing update on a concrete draft. -/
theorem onSave_collaborator_failure_logged_witness :
    (onSave (some 1) (initialState ⟨"2024-01-01T00:00:00.000Z"⟩)
        ⟨Except.error "disk full", Except.ok ()⟩).2.logs =
      [("Failed to save journal entry:", "disk full")]
    ∧ (onSave (some 1) (initialState ⟨"2024-01-01T00:00:00.000Z"⟩)
        ⟨Except.error "disk full", Except.ok ()⟩).2.navigations = []
    ∧ (onSave (some 1) (initialState ⟨"2024-01-01T00:00:00.000Z"⟩)
        ⟨Except.error "disk full", Except.ok ()⟩).2.updateCalls.length ≤ 1
    ∧ (onSave (some 1) (initialState ⟨"2024-01-01T00:00:00.000Z"⟩)
        ⟨Except.error "disk full", Except.ok ()⟩).2.createCalls.length ≤ 1
    ∧ (onSave (some 1) (initialState ⟨"2024-01-01T00:00:00.000Z"⟩)
        ⟨Except.error "disk full", Except.ok ()⟩).1 =
      initialState ⟨"2024-01-01T00:00:00.000Z"⟩ :=
  onSave_collaborator_failure_logged (some 1)
    (initialState ⟨"2024-01-01T00:00:00.000Z"⟩)
    ⟨Except.error "disk full", Except.ok ()⟩ "disk full"
    (Or.inl ⟨1, rfl, rfl⟩)

/-- Claim C8: `addTag` only ever leaves the tag sequence unchanged or
appends the trimmed input at the end; an input that trims to empty is a
no-op; and (the spec's example) on a sequence not containing the raw
input `"  x  "`, `addTag "  x  "` appends exactly `"x"`. -/
theorem addTag_trims_input_and_blank_is_noop (s : EditorState) (tag : String) :
    ((addTag tag s).1.tags = s.tags ∨
     (addTag tag s).1.tags = s.tags ++ [jsTrim tag])
    ∧ (jsTrim tag = "" → (addTag tag s).1.tags = s.tags)
    ∧ (s.tags.contains "  x  " = false →
       (addTag "  x  " s).1.tags = s.tags ++ ["x"]) := by
  refine ⟨?_, ?_, ?_⟩
  · by_cases h1 : jsTrim tag = ""
    · left; simp [addTag, h1]
    · by_cases h2 : tag ∈ s.tags
      · left; simp [addTag, h1, h2]
      · right; simp [addTag, h1, h2]
  · intro h; simp [addTag, h]
  · intro h
    have h' : "  x  " ∉ s.tags := by simpa using h
    have ht : jsTrim "  x  " = "x" := by decide
    simp [addTag, ht, h']

/-- Witness for C8: `addTag "  x  "` on a blank draft stores `"x"`, and a
pure-whitespace input leaves the sequence unchanged. -/
theorem addTag_trims_input_and_blank_is_noop_witness :
    (addTag "  x  " (initialState ⟨"2024-01-01T00:00:00.000Z"⟩)).1.tags = ["x"]
    ∧ (addTag "   " (initialState ⟨"2024-01-01T00:00:00.000Z"⟩)).1.tags = [] :=
  ⟨(addTag_trims_input_and_blank_is_noop
      (initialState ⟨"2024-01-01T00:00:00.000Z"⟩) "  x  ").2.2 (by decide),
   (addTag_trims_input_and_blank_is_noop
      (initialState ⟨"2024-01-01T00:00:00.000Z"⟩) "   ").2.1 (by decide)⟩

/-- Claim C9: `deleteTag v` removes every occurrence of `v`, keeps the
remaining elements in their relative order (the result is a sublist of
the original), keeps every element different from `v`, and is the
identity when `v` is not present. -/
theorem deleteTag_removes_all_occurrences (s : EditorState) (v : String) :
    v ∉ (deleteTag v s).tags
    ∧ (deleteTag v s).tags.Sublist s.tags
    ∧ (∀ t ∈ s.tags, t ≠ v → t ∈ (deleteTag v s).tags)
    ∧ (v ∉ s.tags → (deleteTag v s).tags = s.tags) := by
  refine ⟨?_, ?_, ?_, ?_⟩
  · simp [deleteTag, List.mem_filter]
  · exact List.filter_sublist _
  · intro t ht hne
    simp [deleteTag, List.mem_filter, ht, hne]
  · intro hv
    simp only [deleteTag]
    refine List.filter_eq_self.mpr ?_ |>.symm ▸ ?_
    all_goals
      first
      | (intro a ha; simp; intro hav; exact hv (hav ▸ ha))
      | rfl

/-- Witness for C9 on the concrete sequence `["a", "b", "b", "c"]`. -/
theorem deleteTag_removes_all_occurrences_witness :
    "a" ∈ (deleteTag "b" { initialState ⟨"2024-01-01T00:00:00.000Z"⟩ with
        tags := ["a", "b", "b", "c"] }).tags
    ∧ (deleteTag "z" { initialState ⟨"2024-01-01T00:00:00.000Z"⟩ with
        tags := ["a", "b", "b", "c"] }).tags = ["a", "b", "b", "c"] :=
  ⟨(deleteTag_removes_all_occurrences
      { initialState ⟨"2024-01-01T00:00:00.000Z"⟩ with
        tags := ["a", "b", "b", "c"] } "b").2.2.1 "a" (by decide) (by decide),
   (deleteTag_removes_all_occurrences
      { initialState ⟨"2024-01-01T00:00:00.000Z"⟩ with
        tags := ["a", "b", "b", "c"] } "z").2.2.2 (by decide)⟩

/-- Claim C5: the claim says Ready (loading = false) is entered only after
the fetched record's fields are mapped.  On the code the mount effect
invokes the async `loadEntry()` without awaiting it and then runs
`setLoading(false)` synchronously, so after the first three events of the
trace the machine is already Ready while the stored title `"T"` is not
yet mapped (the draft still shows blank defaults); the fields arrive only
in the later events. -/
theorem mount_ready_before_record_mapped :
    (mountTrace (some 1) (fun _ =>
        some { date := "2024-01-01T00:00:00.000Z", title := "T", body := "B",
               tags := "[\"a\"]" })).take 3 =
      [Ev.setLoading true, Ev.readCall 1, Ev.setLoading false]
    ∧ (runTrace (initialState ⟨"2024-06-01T00:00:00.000Z"⟩)
        ((mountTrace (some 1) (fun _ =>
          some { date := "2024-01-01T00:00:00.000Z", title := "T", body := "B",
                 tags := "[\"a\"]" })).take 3)).loading = false
    ∧ (runTrace (initialState ⟨"2024-06-01T00:00:00.000Z"⟩)
        ((mountTrace (some 1) (fun _ =>
          some { date := "2024-01-01T00:00:00.000Z", title := "T", body := "B",
                 tags := "[\"a\"]" })).take 3)).title = ""
    ∧ (mountState ⟨"2024-06-01T00:00:00.000Z"⟩ (some 1) (fun _ =>
        some { date := "2024-01-01T00:00:00.000Z", title := "T", body := "B",
               tags := "[\"a\"]" })).title = "T"
    ∧ (mountState ⟨"2024-06-01T00:00:00.000Z"⟩ (some 1) (fun _ =>
        some { date := "2024-01-01T00:00:00.000Z", title := "T", body := "B",
               tags := "[\"a\"]" })).tags = ["a"] := by
  decide

/-- Claim C10: when the identifier is present but the read returns an
absent record, the mount effect changes no draft field: the final state
is the blank defaults with only `loading` set to `false`. -/
theorem mount_absent_record_keeps_blank_defaults (now : JSDate) (id : Nat)
    (read : Nat → Option DBEntry) (h : read id = none) :
    mountState now (some id) read =
      { initialState now with loading := false } := by
  simp [mountState, mountTrace, h, runTrace, applyEv]

/-- Claim C7: when the stored record's `tags` field is the JSON text
encoding of an array of strings, the mount-time load deserializes it into
the draft's ordered tag sequence, preserving element order exactly. -/
theorem load_deserializes_tags_in_order (now : JSDate) (id : Nat)
    (read : Nat → Option DBEntry) (e : DBEntry) (l : List String)
    (h1 : read id = some e) (h2 : e.tags = encodeTags l) :
    (mountState now (some id) read).tags = l := by
  have hp : jsonParseTags e.tags = some l := by
    rw [h2]; exact jsonParseTags_encodeTags l
  simp [mountState, mountTrace, h1, hp, runTrace, applyEv]

/-- Witness for C7: stored tags text `'["a","b"]'` yields the in-memory
sequence `["a", "b"]` in that order. -/
theorem load_deserializes_tags_in_order_witness :
    (mountState ⟨"2024-06-01T00:00:00.000Z"⟩ (some 1)
      (fun _ => some { date := "2024-01-01T00:00:00.000Z", title := "T",
                       body := "B", tags := "[\"a\",\"b\"]" })).tags =
      ["a", "b"] :=
  load_deserializes_tags_in_order ⟨"2024-06-01T00:00:00.000Z"⟩ 1 _ _
    ["a", "b"] rfl (by decide)

/-- Witness for C10 with a reader that has no records. -/
theorem mount_absent_record_keeps_blank_defaults_witness :
    mountState ⟨"2024-06-01T00:00:00.000Z"⟩ (some 1) (fun _ => none) =
      { initialState ⟨"2024-06-01T00:00:00.000Z"⟩ with loading := false } :=
  mount_absent_record_keeps_blank_defaults ⟨"2024-06-01T00:00:00.000Z"⟩ 1
    (fun _ => none) rfl

end Journalizer
